import Mathlib

/-!
Shallow embedding of the block-execution core of the `nore` repository:
`src/execution/executor/src/block_executor.rs` (block executor state machine)
and `src/execution/executor/src/db_bootstrapper.rs` (genesis / waypoint path).

The block tree, chunk-output layer and storage adapter are consumed
interfaces of the executor whose implementations are not part of the
sources; they are modelled from the specification (§4.1–§4.3), as noted on
each definition.  Hashes are modelled as naturals, transactions as plain
naturals, and the VM as an explicit function parameter (it is an external
collaborator with a determinism contract).
-/

namespace Nore

/-- A transaction: an abstract deterministic input to the VM. -/
abbrev Txn := Nat

/-- Errors surfaced by the executor (`executor_types::Error`) and the
bootstrap path (anyhow messages), per spec §7. -/
inductive Error where
  | BlockNotFound (id : Nat)
  | BadNumTxnsToCommit (first_version to_commit target_version : Nat)
  | VMError
  | StorageError
  | BootstrapMismatch (msg : String)
deriving DecidableEq, Repr

/-- Modelled from the spec: the append-only Merkle accumulator over
transaction hashes (§3 Ledger View), represented by its list of leaves. -/
structure Accumulator where
  leaves : List Nat
deriving DecidableEq, Repr

/-- `num_leaves()` of the accumulator. -/
def Accumulator.num_leaves (a : Accumulator) : Nat := a.leaves.length

/-- `version()` of the accumulator: `num_leaves - 1`. -/
def Accumulator.version (a : Accumulator) : Nat := a.num_leaves - 1

/-- Modelled from the spec: the accumulator root hash, an arbitrary but
fixed injective-style fold over the leaves. -/
def Accumulator.root_hash (a : Accumulator) : Nat :=
  a.leaves.foldl Nat.pair 0

/-- Modelled from the spec: a ledger view `{ accumulator, state_checkpoint }`
(§3); the state checkpoint is a flattened key→value overlay snapshot. -/
structure LedgerView where
  accumulator : Accumulator
  state : List (Nat × Nat)
deriving DecidableEq, Repr

def LedgerView.txn_accumulator (v : LedgerView) : Accumulator := v.accumulator

/-- One transaction-to-commit record: the txn together with its write set
(§3 Executed Chunk attributes). -/
structure TxnToCommit where
  txn : Txn
  write_set : List (Nat × Nat)
deriving DecidableEq, Repr

/-- Apply a write set over a state snapshot; later writes shadow earlier
ones under first-match lookup. -/
def applyWriteSet (m : List (Nat × Nat)) (ws : List (Nat × Nat)) : List (Nat × Nat) :=
  ws.foldl (fun acc kv => kv :: acc) m

/-- First-match lookup in a state snapshot. -/
def lookupState (m : List (Nat × Nat)) (k : Nat) : Option Nat :=
  (m.find? (fun kv => kv.1 = k)).map (·.2)

/-- A quorum-signed ledger info, flattened with its `BlockInfo`
(version, consensus block id, accumulator root, epoch data). -/
structure LedgerInfo where
  epoch : Nat
  round : Nat
  consensus_block_id : Nat
  root_hash : Nat
  version : Nat
  timestamp_usecs : Nat
  next_epoch_state : Option Nat
  consensus_data_hash : Nat
deriving DecidableEq, Repr

/-- Modelled from the spec: the per-transaction status a block's result
carries (§4.2): kept (committed), discarded by validation, or voided
after the first reconfiguration event. -/
inductive TxnStatus where
  | Keep
  | Discard
  | Retry
deriving DecidableEq, Repr

/-- Modelled from the spec: `ExecutedChunk` (§3): transactions-to-commit,
the per-transaction statuses in execution order, result view, optional
next-epoch state, optional ledger info attached at commit time. -/
structure ExecutedChunk where
  to_commit : List TxnToCommit
  status : List TxnStatus
  result_view : LedgerView
  next_epoch_state : Option Nat
  ledger_info : Option LedgerInfo
deriving DecidableEq, Repr

/-- `has_reconfiguration()`: the next-epoch state is present. -/
def ExecutedChunk.has_reconfiguration (c : ExecutedChunk) : Bool :=
  c.next_epoch_state.isSome

/-- Modelled from the spec: `reconfig_suffix()` — a zero-txn chunk that
inherits the parent's result view and carries the same next-epoch state
(§4.2, §4.4 step 3). -/
def ExecutedChunk.reconfig_suffix (c : ExecutedChunk) : ExecutedChunk :=
  { to_commit := [], status := [], result_view := c.result_view,
    next_epoch_state := c.next_epoch_state, ledger_info := none }

/-- Modelled from the spec: `transactions_to_commit()` returns the chunk's
to-commit sequence (§4.4 commit step 2). -/
def ExecutedChunk.transactions_to_commit (c : ExecutedChunk) : List TxnToCommit :=
  c.to_commit

/-- The `StateComputeResult` a caller votes on (§4.4 step 6): root hash,
version data from the chunk and the parent accumulator, the
per-transaction statuses, and the next-epoch state. -/
structure StateComputeResult where
  root_hash : Nat
  num_leaves : Nat
  parent_num_leaves : Nat
  parent_root_hash : Nat
  num_txns : Nat
  status_per_txn : List TxnStatus
  next_epoch_state : Option Nat
deriving DecidableEq, Repr

/-- Modelled from the spec: `as_state_compute_result(parent_accumulator)`
(§4.4 step 6): `{ root_hash, version_range, status_per_txn,
next_epoch_state? }`. -/
def ExecutedChunk.as_state_compute_result (c : ExecutedChunk)
    (parent_accumulator : Accumulator) : StateComputeResult :=
  { root_hash := c.result_view.accumulator.root_hash
    num_leaves := c.result_view.accumulator.num_leaves
    parent_num_leaves := parent_accumulator.num_leaves
    parent_root_hash := parent_accumulator.root_hash
    num_txns := c.to_commit.length
    status_per_txn := c.status
    next_epoch_state := c.next_epoch_state }

/-- Output of the VM on one transaction: a kept output (write set plus an
optional reconfiguration, i.e. new-epoch, event payload), a discarded
transaction (excluded from commit), or a non-deterministic failure. -/
inductive VMOut where
  | keep (write_set : List (Nat × Nat)) (reconfig : Option Nat)
  | discard
  | err
deriving DecidableEq, Repr

/-- The VM capability: one deterministic evaluation function
`(txn, state_view) → output` (spec §9, generic `V: VMExecutor`). -/
abbrev VMExec := Txn → List (Nat × Nat) → VMOut

/-- Modelled from the spec: the raw output of `by_transaction_execution`
before applying to a ledger view (§4.2). -/
structure ChunkOutput where
  to_commit : List TxnToCommit
  discarded : List Txn
  retry : List Txn
  status : List TxnStatus
  next_epoch_state : Option Nat
deriving DecidableEq, Repr

/-- Run the transactions one at a time against the state view, collecting
a status per transaction in execution order; a discarded txn is excluded
from commit; after the first reconfiguration event all later txns are
marked retry and excluded from commit; a VM failure aborts the whole
block (§4.2). -/
def runTxns (vm : VMExec) (sv : List (Nat × Nat)) : List Txn → Except Error ChunkOutput
  | [] => .ok { to_commit := [], discarded := [], retry := [], status := [],
                next_epoch_state := none }
  | t :: ts =>
    match vm t sv with
    | .err => .error .VMError
    | .discard =>
      match runTxns vm sv ts with
      | .error e => .error e
      | .ok rest =>
        .ok { rest with discarded := t :: rest.discarded,
                        status := .Discard :: rest.status }
    | .keep ws rc =>
      match rc with
      | some es =>
        .ok { to_commit := [⟨t, ws⟩], discarded := [], retry := ts,
              status := .Keep :: ts.map (fun _ => .Retry),
              next_epoch_state := some es }
      | none =>
        match runTxns vm sv ts with
        | .error e => .error e
        | .ok rest =>
          .ok { rest with to_commit := ⟨t, ws⟩ :: rest.to_commit,
                          status := .Keep :: rest.status }

/-- Modelled from the spec: `ChunkOutput::by_transaction_execution` (§4.2). -/
def ChunkOutput.by_transaction_execution (vm : VMExec) (txns : List Txn)
    (state_view : List (Nat × Nat)) : Except Error ChunkOutput :=
  runTxns vm state_view txns

/-- Modelled from the spec: `apply_to_ledger(parent_view)` (§4.2): extend
the parent accumulator with the hashes of the to-commit txns, layer the
write sets over the parent state, keep the next-epoch state.  Returns the
executed chunk together with the (discarded, retry) partitions. -/
def ChunkOutput.apply_to_ledger (co : ChunkOutput) (parent_view : LedgerView) :
    ExecutedChunk × List Txn × List Txn :=
  ({ to_commit := co.to_commit
     status := co.status
     result_view :=
       { accumulator := ⟨parent_view.accumulator.leaves ++ co.to_commit.map (·.txn)⟩
         state := co.to_commit.foldl (fun m tc => applyWriteSet m tc.write_set)
           parent_view.state }
     next_epoch_state := co.next_epoch_state
     ledger_info := none }, co.discarded, co.retry)

/-- Modelled from the spec: a block-tree node (§3 Block): id, parent id,
executed output, and the number of persisted transactions (meaningful on
the root). -/
structure Block where
  id : Nat
  parent_id : Nat
  output : ExecutedChunk
  num_persisted_transactions : Nat
deriving DecidableEq, Repr

/-- Modelled from the spec: the in-memory speculative block tree (§4.3): a
distinguished root (the last committed block, always present) plus the
speculative blocks. -/
structure BlockTree where
  root : Block
  speculative : List Block
deriving DecidableEq, Repr

/-- `root_block()`: the current anchor. -/
def BlockTree.root_block (t : BlockTree) : Block := t.root

/-- All nodes of the tree, root first. -/
def BlockTree.allBlocks (t : BlockTree) : List Block := t.root :: t.speculative

/-- Look one block up by id. -/
def BlockTree.get (t : BlockTree) (id : Nat) : Option Block :=
  t.allBlocks.find? (fun b => b.id = id)

/-- Number of nodes carrying a given id (per invariant I4 it is ≤ 1). -/
def BlockTree.countId (t : BlockTree) (id : Nat) : Nat :=
  (t.allBlocks.filter (fun b => b.id = id)).length

/-- Modelled from the spec: `get_blocks_opt(ids)` — an `Option` per id,
preserving order (§4.3). -/
def BlockTree.get_blocks_opt (t : BlockTree) (ids : List Nat) : List (Option Block) :=
  ids.map t.get

/-- Modelled from the spec: `get_blocks(ids)` — like `get_blocks_opt` but
errors on the first missing id (§4.3). -/
def BlockTree.get_blocks (t : BlockTree) (ids : List Nat) : Except Error (List Block) :=
  ids.mapM (fun id =>
    match t.get id with
    | none => .error (.BlockNotFound id)
    | some b => .ok b)

/-- Modelled from the spec: `add_block(parent_id, block_id, output)` —
fails if the parent is missing; returns the existing node unchanged if
`block_id` is already present; otherwise inserts (§4.3). -/
def BlockTree.add_block (t : BlockTree) (parent_id block_id : Nat)
    (output : ExecutedChunk) : Except Error (Block × BlockTree) :=
  match t.get parent_id with
  | none => .error (.BlockNotFound parent_id)
  | some _ =>
    match t.get block_id with
    | some b => .ok (b, t)
    | none =>
      let b : Block := ⟨block_id, parent_id, output, 0⟩
      .ok (b, { t with speculative := b :: t.speculative })

/-- Modelled from the spec: `prune(ledger_info)` — promote the ledger
info's consensus block to be the new root with `num_persisted_transactions
= version + 1`; every other node is removed (§4.3). -/
def BlockTree.prune (t : BlockTree) (li : LedgerInfo) : Except Error BlockTree :=
  match t.get li.consensus_block_id with
  | none => .error (.BlockNotFound li.consensus_block_id)
  | some b =>
    .ok { root := { b with num_persisted_transactions := li.version + 1 }
          speculative := [] }

/-- Modelled from the spec: the persistent storage adapter (§4.1): an
append-only transaction log, the persisted state snapshot, and the latest
signed ledger info. -/
structure Storage where
  txns : List TxnToCommit
  state : List (Nat × Nat)
  ledger_info : Option LedgerInfo
deriving DecidableEq, Repr

/-- Modelled from the spec: `save_transactions(txns, first_version, li?)`
atomically appends; fails if `first_version` is not the persisted length;
advances the ledger info when one is supplied (§4.1). -/
def Storage.save_transactions (db : Storage) (txns : List TxnToCommit)
    (first_version : Nat) (li : Option LedgerInfo) : Except Error Storage :=
  if first_version ≠ db.txns.length then .error .StorageError
  else
    .ok { txns := db.txns ++ txns
          state := txns.foldl (fun m tc => applyWriteSet m tc.write_set) db.state
          ledger_info := match li with | some l => some l | none => db.ledger_info }

/-- The executor's state: its block tree and its storage handle. -/
structure ExecutorState where
  tree : BlockTree
  db : Storage
deriving DecidableEq, Repr

/-- `committed_block_id()`: the root block's id. -/
def ExecutorState.committed_block_id (st : ExecutorState) : Nat := st.tree.root.id

/-- `execute_block((block_id, txns), parent_block_id)` from
`src/execution/executor/src/block_executor.rs` lines 59–120, with the VM
as an explicit parameter and the tree threaded explicitly.  The pair
returned is (result, post-state). -/
def execute_block (vm : VMExec) (st : ExecutorState) (block : Nat × List Txn)
    (parent_block_id : Nat) : Except Error StateComputeResult × ExecutorState :=
  let block_id := block.1
  let transactions := block.2
  let committed_block := st.tree.root_block
  match st.tree.get parent_block_id with
  | none => (.error (.BlockNotFound parent_block_id), st)
  | some parent_block =>
    let parent_accumulator := parent_block.output.result_view.txn_accumulator
    match st.tree.get block_id with
    | some b =>
      -- this is a retry
      (.ok (b.output.as_state_compute_result parent_accumulator), st)
    | none =>
      let outputE : Except Error ExecutedChunk :=
        if parent_block_id ≠ committed_block.id ∧
            parent_block.output.has_reconfiguration = true then
          .ok parent_block.output.reconfig_suffix
        else
          match ChunkOutput.by_transaction_execution vm transactions
              parent_block.output.result_view.state with
          | .error e => .error e
          | .ok chunk_output =>
            .ok (chunk_output.apply_to_ledger parent_block.output.result_view).1
      match outputE with
      | .error e => (.error e, st)
      | .ok output =>
        match st.tree.add_block parent_block_id block_id output with
        | .error e => (.error e, st)
        | .ok (blk, tree') =>
          (.ok (blk.output.as_state_compute_result parent_accumulator),
           { st with tree := tree' })

/-- Outcome of `commit_blocks`: success, a surfaced error, or the fatal
abort when pruning fails after a successful persist. -/
inductive CommitResult where
  | ok
  | err (e : Error)
  | fatal
deriving DecidableEq, Repr

/-- `commit_blocks(block_ids, ledger_info_with_sigs)` from
`src/execution/executor/src/block_executor.rs` lines 122–182. -/
def commit_blocks (st : ExecutorState) (block_ids : List Nat) (li : LedgerInfo) :
    CommitResult × ExecutorState :=
  let committed_block := st.tree.root_block
  if committed_block.num_persisted_transactions = li.version + 1 then
    -- a retry
    (.ok, st)
  else
    match st.tree.get_blocks block_ids with
    | .error e => (.err e, st)
    | .ok blocks =>
      let txns_to_commit := (blocks.map (fun b => b.output.transactions_to_commit)).flatten
      let first_version := committed_block.output.result_view.txn_accumulator.num_leaves
      let to_commit := txns_to_commit.length
      let target_version := li.version
      if first_version + to_commit ≠ target_version + 1 then
        (.err (.BadNumTxnsToCommit first_version to_commit target_version), st)
      else
        match st.db.save_transactions txns_to_commit first_version (some li) with
        | .error e => (.err e, st)
        | .ok db' =>
          match st.tree.prune li with
          | .error _ => (.fatal, { st with db := db' })
          | .ok tree' => (.ok, { tree := tree', db := db' })

/-- Modelled from the spec: the `TreeState` snapshot returned by storage
(§3): transaction count, accumulator data, persisted state. -/
structure TreeState where
  num_transactions : Nat
  leaves : List Nat
  state : List (Nat × Nat)
deriving DecidableEq, Repr

/-- Modelled from the spec: `get_latest_tree_state()` (§4.1). -/
def Storage.get_latest_tree_state (db : Storage) : TreeState :=
  { num_transactions := db.txns.length
    leaves := db.txns.map (·.txn)
    state := db.state }

/-- Modelled from the spec: `into_ledger_view` — build a ledger view over
a tree state (empty accumulator iff no transactions). -/
def TreeState.into_ledger_view (ts : TreeState) : LedgerView :=
  { accumulator := ⟨ts.leaves⟩, state := ts.state }

def GENESIS_EPOCH : Nat := 0

def GENESIS_ROUND : Nat := 0

def GENESIS_TIMESTAMP_USECS : Nat := 0

/-- `genesis_block_id()`: the zero hash. -/
def genesis_block_id : Nat := 0

/-- Modelled key of `ConfigurationResource` at `config_address`. -/
def config_key : Nat := 0

/-- Modelled key of `TimestampResource` at the root address. -/
def timestamp_key : Nat := 1

/-- `get_state_epoch`: read `ConfigurationResource.epoch` from a state
view; fails when the resource is missing
(`src/execution/executor/src/db_bootstrapper.rs` lines 192–201). -/
def get_state_epoch (state_view : List (Nat × Nat)) : Except Error Nat :=
  match lookupState state_view config_key with
  | none => .error (.BootstrapMismatch "ConfigurationResource missing.")
  | some v => .ok v

/-- `get_state_timestamp`: read `TimestampResource.timestamp.microseconds`
from a state view; fails when the resource is missing
(`src/execution/executor/src/db_bootstrapper.rs` lines 181–190). -/
def get_state_timestamp (state_view : List (Nat × Nat)) : Except Error Nat :=
  match lookupState state_view timestamp_key with
  | none => .error (.BootstrapMismatch "TimestampResource missing.")
  | some v => .ok v

/-- Modelled from the spec: a waypoint — a compact `(version, root_hash)`
commitment to an epoch-boundary ledger info (§3). -/
structure Waypoint where
  version : Nat
  root_hash : Nat
deriving DecidableEq, Repr

/-- Modelled from the spec: `Waypoint::new_epoch_boundary(ledger_info)`. -/
def Waypoint.new_epoch_boundary (li : LedgerInfo) : Waypoint :=
  { version := li.version, root_hash := li.root_hash }

/-- `GenesisCommitter`: the executed genesis chunk (ledger info attached)
with its waypoint (`db_bootstrapper.rs` lines 67–104). -/
structure GenesisCommitter where
  output : ExecutedChunk
  waypoint : Waypoint
deriving DecidableEq, Repr

/-- `GenesisCommitter::commit()`: persist the genesis chunk at
`result_view.txn_accumulator().version()` with its ledger info
(`db_bootstrapper.rs` lines 93–103). -/
def GenesisCommitter.commit (c : GenesisCommitter) (db : Storage) : Except Error Storage :=
  db.save_transactions c.output.transactions_to_commit
    c.output.result_view.txn_accumulator.version c.output.ledger_info

/-- The chunk produced by executing the genesis transaction over a tree
state's ledger view (the execution + apply stage of `calculate_genesis`). -/
def genesis_output (vm : VMExec) (ts : TreeState) (genesis_txn : Txn) :
    Except Error ExecutedChunk :=
  match ChunkOutput.by_transaction_execution vm [genesis_txn]
      ts.into_ledger_view.state with
  | .error e => .error e
  | .ok co => .ok (co.apply_to_ledger ts.into_ledger_view).1

/-- The prior-epoch stage of `calculate_genesis`
(`db_bootstrapper.rs` lines 119–123): `GENESIS_EPOCH` on an empty ledger,
otherwise the on-chain `ConfigurationResource.epoch`. -/
def genesis_epoch_of (ts : TreeState) : Except Error Nat :=
  if ts.num_transactions = 0 then .ok GENESIS_EPOCH
  else get_state_epoch ts.into_ledger_view.state

/-- The timestamp stage of `calculate_genesis`
(`db_bootstrapper.rs` lines 133–150): the constant genesis timestamp on
an empty ledger; on a non-empty ledger require the post-genesis epoch to
be the prior epoch plus one, then read the post-genesis
`TimestampResource`. -/
def genesis_timestamp_of (ts : TreeState) (epoch : Nat) (output : ExecutedChunk) :
    Except Error Nat :=
  if ts.num_transactions = 0 then .ok GENESIS_TIMESTAMP_USECS
  else
    match get_state_epoch output.result_view.state with
    | .error e => .error e
    | .ok new_epoch =>
      if epoch + 1 ≠ new_epoch then
        .error (.BootstrapMismatch "Genesis txn did not bump epoch.")
      else get_state_timestamp output.result_view.state

/-- The ledger info assembled by `calculate_genesis`
(`db_bootstrapper.rs` lines 156–170). -/
def genesis_ledger_info (ts : TreeState) (epoch : Nat) (output : ExecutedChunk)
    (timestamp_usecs : Nat) : LedgerInfo :=
  { epoch := epoch
    round := GENESIS_ROUND
    consensus_block_id := genesis_block_id
    root_hash := output.result_view.txn_accumulator.root_hash
    version := ts.num_transactions
    timestamp_usecs := timestamp_usecs
    next_epoch_state := output.next_epoch_state
    consensus_data_hash := genesis_block_id }

/-- `calculate_genesis(db, tree_state, genesis_txn)` from
`src/execution/executor/src/db_bootstrapper.rs` lines 106–179: read the
prior epoch (0 on an empty ledger), execute the genesis txn, require a
non-empty commit, check the epoch bump and read the on-chain timestamp on
a non-empty ledger (constant timestamp on an empty one), require a
reconfiguration event, and assemble the genesis ledger info. -/
def calculate_genesis (vm : VMExec) (ts : TreeState) (genesis_txn : Txn) :
    Except Error GenesisCommitter :=
  match genesis_epoch_of ts with
  | .error e => .error e
  | .ok epoch =>
    match genesis_output vm ts genesis_txn with
    | .error e => .error e
    | .ok output =>
      if output.to_commit.isEmpty then
        .error (.BootstrapMismatch "Genesis txn execution failed.")
      else
        match genesis_timestamp_of ts epoch output with
        | .error e => .error e
        | .ok timestamp_usecs =>
          if output.next_epoch_state.isNone then
            .error (.BootstrapMismatch "Genesis txn did not output reconfig event.")
          else
            let li : LedgerInfo := genesis_ledger_info ts epoch output timestamp_usecs
            .ok { output := { output with ledger_info := some li }
                  waypoint := Waypoint.new_epoch_boundary li }

/-- `generate_waypoint(db, genesis_txn)` (`db_bootstrapper.rs` lines
30–38). -/
def generate_waypoint (vm : VMExec) (db : Storage) (genesis_txn : Txn) :
    Except Error Waypoint :=
  match calculate_genesis vm db.get_latest_tree_state genesis_txn with
  | .error e => .error e
  | .ok committer => .ok committer.waypoint

/-- `maybe_bootstrap(db, genesis_txn, waypoint)` (`db_bootstrapper.rs`
lines 43–65): skip (returning `false`) when the persisted length differs
from the waypoint version; otherwise recompute genesis, require the
waypoints to match, and commit. -/
def maybe_bootstrap (vm : VMExec) (db : Storage) (genesis_txn : Txn)
    (waypoint : Waypoint) : Except Error (Bool × Storage) :=
  let ts := db.get_latest_tree_state
  if ts.num_transactions ≠ waypoint.version then .ok (false, db)
  else
    match calculate_genesis vm ts genesis_txn with
    | .error e => .error e
    | .ok committer =>
      if waypoint ≠ committer.waypoint then
        .error (.BootstrapMismatch "Waypoint verification failed.")
      else
        match committer.commit db with
        | .error e => .error e
        | .ok db' => .ok (true, db')

/-! ### Helper lemmas -/

theorem BlockTree.get_none_iff (t : BlockTree) (id : Nat) :
    t.get id = none ↔ ∀ b ∈ t.allBlocks, ¬ b.id = id := by
  simp [BlockTree.get, List.find?_eq_none]

theorem BlockTree.add_block_no_dup (t : BlockTree) (parent_id block_id : Nat)
    (output : ExecutedChunk) (hp : t.get parent_id ≠ none) (hb : t.get block_id = none) :
    t.add_block parent_id block_id output =
      .ok (⟨block_id, parent_id, output, 0⟩,
        { t with speculative := ⟨block_id, parent_id, output, 0⟩ :: t.speculative }) := by
  unfold BlockTree.add_block
  cases h : t.get parent_id with
  | none => exact absurd h hp
  | some p => rw [hb]

/-! ### Concrete fixtures used by witnesses and counterexamples -/

/-- A committed root chunk carrying no reconfiguration. -/
def fixRootChunk : ExecutedChunk :=
  { to_commit := [], status := [],
    result_view := { accumulator := ⟨[]⟩, state := [(0, 5), (1, 100)] },
    next_epoch_state := none, ledger_info := none }

/-- A plain executor state: empty ledger, a single root block with id 0. -/
def fixSt : ExecutorState :=
  { tree := { root := ⟨0, 0, fixRootChunk, 0⟩, speculative := [] },
    db := { txns := [], state := [(0, 5), (1, 100)], ledger_info := none } }

/-- A VM that keeps every transaction with a simple write set and no
reconfiguration. -/
def fixVM : VMExec := fun t _ => .keep [(2, t)] none

/-! ### C6 -/

/-- C6: when `parent_id` is not present in the block tree, `execute_block`
fails with `BlockNotFound(parent_id)` and the executor state (in
particular the block tree) is unchanged. -/
theorem execute_block_parent_not_found (vm : VMExec) (st : ExecutorState)
    (block_id : Nat) (txns : List Txn) (parent_id : Nat)
    (h : st.tree.get parent_id = none) :
    execute_block vm st (block_id, txns) parent_id =
      (.error (.BlockNotFound parent_id), st) := by
  unfold execute_block
  simp only [h]

/-- C6 witness: executing on the missing parent 7 in the concrete fixture
state fails with `BlockNotFound 7` and leaves the state unchanged. -/
theorem execute_block_parent_not_found_witness :
    fixSt.tree.get 7 = none ∧
    execute_block fixVM fixSt (1, [2]) 7 = (.error (.BlockNotFound 7), fixSt) :=
  ⟨by decide, execute_block_parent_not_found fixVM fixSt 1 [2] 7 (by decide)⟩

/-! ### C5 -/

/-- C5: `execute_block` is deterministic — the `StateComputeResult` is a
function of the parent block's output, the committed root, and the
transaction list alone: two executor states that agree on those (here,
two states holding the same parent block and the same committed root,
with the block id fresh in both) produce identical results for the same
`(block_id, txns)` input, whatever else their trees contain. -/
theorem execute_block_deterministic (vm : VMExec) (st1 st2 : ExecutorState)
    (block_id : Nat) (txns : List Txn) (parent_id : Nat) (p : Block)
    (hroot : st1.tree.root = st2.tree.root)
    (hp1 : st1.tree.get parent_id = some p) (hp2 : st2.tree.get parent_id = some p)
    (hb1 : st1.tree.get block_id = none) (hb2 : st2.tree.get block_id = none) :
    (execute_block vm st1 (block_id, txns) parent_id).1 =
      (execute_block vm st2 (block_id, txns) parent_id).1 := by
  unfold execute_block
  simp only [BlockTree.root_block, hp1, hp2, hb1, hb2, hroot]
  split
  · rfl
  · rw [BlockTree.add_block_no_dup _ _ _ _ (by simp [hp1]) hb1,
      BlockTree.add_block_no_dup _ _ _ _ (by simp [hp2]) hb2]

/-- C5 witness: two concrete states sharing the root and the parent block
but differing in their speculative contents yield the same result. -/
theorem execute_block_deterministic_witness :
    (execute_block fixVM fixSt (2, [5, 6]) 0).1 =
      (execute_block fixVM
        { fixSt with tree := { fixSt.tree with
            speculative := [⟨9, 0, fixRootChunk.reconfig_suffix, 0⟩] } }
        (2, [5, 6]) 0).1 :=
  execute_block_deterministic fixVM fixSt _ 2 [5, 6] 0 fixSt.tree.root
    (by decide) (by decide) (by decide) (by decide) (by decide)

/-! ### C3 -/

theorem BlockTree.get_cons_other (t : BlockTree) (b₀ : Block) (id : Nat)
    (h : ¬ b₀.id = id) :
    ({ t with speculative := b₀ :: t.speculative } : BlockTree).get id = t.get id := by
  by_cases hr : t.root.id = id
  · simp [BlockTree.get, BlockTree.allBlocks, List.find?, hr]
  · simp [BlockTree.get, BlockTree.allBlocks, List.find?, hr, h]

theorem BlockTree.get_cons_self (t : BlockTree) (b₀ : Block)
    (h : ¬ t.root.id = b₀.id) :
    ({ t with speculative := b₀ :: t.speculative } : BlockTree).get b₀.id = some b₀ := by
  simp [BlockTree.get, BlockTree.allBlocks, List.find?, h]

theorem BlockTree.countId_cons_self (t : BlockTree) (b₀ : Block)
    (h : t.get b₀.id = none) :
    ({ t with speculative := b₀ :: t.speculative } : BlockTree).countId b₀.id = 1 := by
  have hall := (BlockTree.get_none_iff t b₀.id).mp h
  have hroot : ¬ t.root.id = b₀.id := hall t.root (by simp [BlockTree.allBlocks])
  have hspec : ∀ b ∈ t.speculative, ¬ b.id = b₀.id := fun b hb =>
    hall b (by simp [BlockTree.allBlocks, hb])
  simp only [BlockTree.countId, BlockTree.allBlocks]
  rw [List.filter_cons_of_neg (by simpa using hroot),
    List.filter_cons_of_pos (by simp),
    List.filter_eq_nil_iff.mpr (fun b hb => by simpa using hspec b hb)]
  rfl

/-- C3: `execute_block` is idempotent on retry.  First, when `block_id`
is already in the tree, the call returns the cached block's
`as_state_compute_result(parent.accumulator)` without touching the state
(no VM invocation, no insertion).  Second, executing the same block twice
yields equal results, the second call leaves the post-state of the first
untouched, and the tree holds exactly one node for `block_id`. -/
theorem execute_block_idempotent (vm : VMExec) (st : ExecutorState)
    (block_id : Nat) (txns : List Txn) (parent_id : Nat) :
    (∀ b p, st.tree.get block_id = some b → st.tree.get parent_id = some p →
      execute_block vm st (block_id, txns) parent_id =
        (.ok (b.output.as_state_compute_result p.output.result_view.txn_accumulator),
          st)) ∧
    (∀ r st', st.tree.get block_id = none →
      execute_block vm st (block_id, txns) parent_id = (.ok r, st') →
      execute_block vm st' (block_id, txns) parent_id = (.ok r, st') ∧
        st'.tree.countId block_id = 1) := by
  constructor
  · intro b p hb hp
    unfold execute_block
    simp only [hp, hb]
  · intro r st' hb h
    unfold execute_block at h
    cases hp : st.tree.get parent_id with
    | none => simp only [hp] at h; simp at h
    | some p =>
      simp only [hp, hb] at h
      have hne : ¬ block_id = parent_id := by
        intro hEq; rw [hEq, hp] at hb; exact Option.noConfusion hb
      have hrootne : ¬ st.tree.root.id = block_id :=
        (BlockTree.get_none_iff st.tree block_id).mp hb st.tree.root
          (by simp [BlockTree.allBlocks])
      split at h
      · simp at h
      · rename_i output heq
        rw [BlockTree.add_block_no_dup _ _ _ _ (by simp [hp]) hb] at h
        simp only [Prod.mk.injEq, Except.ok.injEq] at h
        obtain ⟨hr, hst⟩ := h
        subst hst
        refine ⟨?_, BlockTree.countId_cons_self st.tree ⟨block_id, parent_id, output, 0⟩ hb⟩
        unfold execute_block
        simp only [BlockTree.get_cons_other st.tree ⟨block_id, parent_id, output, 0⟩
            parent_id (by simpa using hne),
          BlockTree.get_cons_self st.tree ⟨block_id, parent_id, output, 0⟩ hrootne,
          hp, hr]

/-- The post-state of executing block 1 with txns `[7, 8]` on the fixture
root. -/
def fixSt1 : ExecutorState := (execute_block fixVM fixSt (1, [7, 8]) 0).2

/-- The result of executing block 1 with txns `[7, 8]` on the fixture
root. -/
def fixR : StateComputeResult :=
  { root_hash := 2458, num_leaves := 2, parent_num_leaves := 0,
    parent_root_hash := 0, num_txns := 2, status_per_txn := [.Keep, .Keep],
    next_epoch_state := none }

/-- C3 witness: executing block 1 twice on the fixture state returns the
same result both times, leaves the first call's post-state untouched, and
the tree holds exactly one node for block 1. -/
theorem execute_block_idempotent_witness :
    fixSt.tree.get 1 = none ∧
    (execute_block fixVM fixSt1 (1, [7, 8]) 0 = (.ok fixR, fixSt1) ∧
      fixSt1.tree.countId 1 = 1) :=
  ⟨by decide, (execute_block_idempotent fixVM fixSt 1 [7, 8] 0).2 fixR fixSt1
    (by decide) (by rfl)⟩

/-! ### C4 -/

/-- C4 (amended): any child executed on a parent whose output
`has_reconfiguration()`, provided the parent is NOT the committed root,
is the parent's reconfig suffix: it commits zero transactions, inherits
the parent's result view, and carries the parent's `next_epoch_state`
unchanged — for every VM and every transaction list. -/
theorem execute_block_reconfig_suffix (vm : VMExec) (st : ExecutorState)
    (block_id : Nat) (txns : List Txn) (parent_id : Nat) (p : Block)
    (hp : st.tree.get parent_id = some p) (hb : st.tree.get block_id = none)
    (hne : ¬ parent_id = st.tree.root.id)
    (hrec : p.output.has_reconfiguration = true) :
    execute_block vm st (block_id, txns) parent_id =
      (.ok (p.output.reconfig_suffix.as_state_compute_result
          p.output.result_view.txn_accumulator),
        { st with tree := { st.tree with
            speculative := ⟨block_id, parent_id, p.output.reconfig_suffix, 0⟩ ::
              st.tree.speculative } }) ∧
    p.output.reconfig_suffix.to_commit = [] ∧
    p.output.reconfig_suffix.result_view = p.output.result_view ∧
    p.output.reconfig_suffix.next_epoch_state = p.output.next_epoch_state := by
  refine ⟨?_, rfl, rfl, rfl⟩
  unfold execute_block
  simp only [BlockTree.root_block, hp, hb]
  rw [if_pos ⟨hne, hrec⟩]
  simp only [BlockTree.add_block_no_dup st.tree parent_id block_id
    p.output.reconfig_suffix (by simp [hp]) hb]

/-- A speculative block (id 1, on the root) whose output carries a
reconfiguration. -/
def fixReconfigBlock : Block :=
  ⟨1, 0,
    { to_commit := [⟨7, []⟩], status := [.Keep],
      result_view := { accumulator := ⟨[7]⟩, state := [(0, 5), (1, 100)] },
      next_epoch_state := some 3, ledger_info := none }, 0⟩

/-- The fixture state extended with the speculative reconfig block. -/
def fixReconfigSt : ExecutorState :=
  { fixSt with tree := { fixSt.tree with speculative := [fixReconfigBlock] } }

/-- C4 witness: executing block 2 on the non-root reconfig parent 1
produces the parent's reconfig suffix: zero txns committed, inherited
result view, same `next_epoch_state`. -/
theorem execute_block_reconfig_suffix_witness :
    execute_block fixVM fixReconfigSt (2, [9]) 1 =
      (.ok (fixReconfigBlock.output.reconfig_suffix.as_state_compute_result
          fixReconfigBlock.output.result_view.txn_accumulator),
        { fixReconfigSt with tree := { fixReconfigSt.tree with
            speculative := ⟨2, 1, fixReconfigBlock.output.reconfig_suffix, 0⟩ ::
              fixReconfigSt.tree.speculative } }) ∧
    fixReconfigBlock.output.reconfig_suffix.to_commit = [] ∧
    fixReconfigBlock.output.reconfig_suffix.result_view =
      fixReconfigBlock.output.result_view ∧
    fixReconfigBlock.output.reconfig_suffix.next_epoch_state =
      fixReconfigBlock.output.next_epoch_state :=
  execute_block_reconfig_suffix fixVM fixReconfigSt 2 [9] 1 fixReconfigBlock
    (by decide) (by decide) (by decide) (by decide)

/-- A state whose COMMITTED ROOT (id 0) carries a reconfiguration, with a
speculative reconfig child (id 1) on it. -/
def cexReconfigSt : ExecutorState :=
  { tree :=
      { root := ⟨0, 0,
          { to_commit := [], status := [],
            result_view := { accumulator := ⟨[4]⟩, state := [] },
            next_epoch_state := some 5, ledger_info := none }, 1⟩,
        speculative := [] },
    db := { txns := [⟨4, []⟩], state := [], ledger_info := none } }

/-- C4 counterexample: the claim also demands the reconfig-suffix shape
"regardless of whether the parent is the committed root", but when the
parent IS the committed root the code takes the normal VM path: here the
root has `has_reconfiguration() = true`, yet the child executed on it
commits one transaction and carries no `next_epoch_state`, so it is not
the parent's reconfig suffix. -/
theorem execute_block_reconfig_committed_root_cex :
    cexReconfigSt.tree.root.output.has_reconfiguration = true ∧
    cexReconfigSt.tree.root.id = 0 ∧
    ((execute_block fixVM cexReconfigSt (1, [9]) 0).2.tree.get 1).map
        (fun b => b.output.to_commit.length) = some 1 ∧
    ((execute_block fixVM cexReconfigSt (1, [9]) 0).2.tree.get 1).map
        (fun b => b.output.next_epoch_state) = some none ∧
    cexReconfigSt.tree.root.output.next_epoch_state = some 5 := by
  decide

/-! ### C2 -/

theorem BlockTree.prune_num_persisted (t : BlockTree) (li : LedgerInfo)
    (t' : BlockTree) (h : t.prune li = .ok t') :
    t'.root.num_persisted_transactions = li.version + 1 := by
  unfold BlockTree.prune at h
  split at h
  · exact absurd h (by simp)
  · simp only [Except.ok.injEq] at h
    subst h
    rfl

/-- C2: `commit_blocks` is idempotent on retry.  First, when the committed
root's `num_persisted_transactions` already equals `li.version + 1`, the
call returns success immediately with the state (tree and storage)
untouched.  Second, when a call succeeds, calling again with the same
ledger info is a no-op success: the transactions stay persisted exactly
once. -/
theorem commit_blocks_idempotent (st : ExecutorState) (block_ids : List Nat)
    (li : LedgerInfo) :
    (st.tree.root.num_persisted_transactions = li.version + 1 →
      commit_blocks st block_ids li = (.ok, st)) ∧
    (∀ st', commit_blocks st block_ids li = (.ok, st') →
      commit_blocks st' block_ids li = (.ok, st')) := by
  have retry_case : ∀ s : ExecutorState,
      s.tree.root.num_persisted_transactions = li.version + 1 →
      commit_blocks s block_ids li = (.ok, s) := by
    intro s hs
    unfold commit_blocks
    simp only [BlockTree.root_block]
    rw [if_pos hs]
  refine ⟨retry_case st, ?_⟩
  intro st' h
  unfold commit_blocks at h
  simp only [BlockTree.root_block] at h
  by_cases hretry : st.tree.root.num_persisted_transactions = li.version + 1
  · rw [if_pos hretry] at h
    simp only [Prod.mk.injEq, true_and] at h
    subst h
    exact retry_case st hretry
  · rw [if_neg hretry] at h
    split at h
    · simp at h
    · split at h
      · simp at h
      · split at h
        · simp at h
        · split at h
          · simp at h
          · rename_i tree' hprune
            simp only [Prod.mk.injEq, true_and] at h
            subst h
            exact retry_case _ (BlockTree.prune_num_persisted _ li tree' hprune)

/-- The ledger info committing block 1 (versions 0–1). -/
def fixLi : LedgerInfo :=
  { epoch := 0, round := 1, consensus_block_id := 1, root_hash := 0,
    version := 1, timestamp_usecs := 0, next_epoch_state := none,
    consensus_data_hash := 0 }

/-- The state after committing block 1 from `fixSt1`. -/
def fixSt2 : ExecutorState := (commit_blocks fixSt1 [1] fixLi).2

/-- C2 witness: committing block 1 succeeds, and re-committing with the
same ledger info on the post-state is a no-op success. -/
theorem commit_blocks_idempotent_witness :
    commit_blocks fixSt1 [1] fixLi = (.ok, fixSt2) ∧
    commit_blocks fixSt2 [1] fixLi = (.ok, fixSt2) :=
  ⟨by rfl, (commit_blocks_idempotent fixSt1 [1] fixLi).2 fixSt2 (by rfl)⟩

/-! ### C1 -/

/-- C1 (amended): provided the idempotent-retry check does not fire
(`root.num_persisted_transactions ≠ li.version + 1`) and every id in
`block_ids` resolves to a block, if `first_version + to_commit ≠
li.version + 1` — with `first_version` the committed root's accumulator
leaf count and `to_commit` the total length of the flattened
transactions-to-commit — then `commit_blocks` returns exactly
`BadNumTxnsToCommit { first_version, to_commit, target_version }` and the
state (tree and storage, hence no `save_transactions` write) is
unchanged. -/
theorem commit_blocks_bad_num_txns (st : ExecutorState) (block_ids : List Nat)
    (li : LedgerInfo) (blocks : List Block)
    (hretry : ¬ st.tree.root.num_persisted_transactions = li.version + 1)
    (hblocks : st.tree.get_blocks block_ids = .ok blocks)
    (hsum : ¬ st.tree.root.output.result_view.txn_accumulator.num_leaves +
        ((blocks.map (fun b => b.output.transactions_to_commit)).flatten).length =
        li.version + 1) :
    commit_blocks st block_ids li =
      (.err (.BadNumTxnsToCommit
          st.tree.root.output.result_view.txn_accumulator.num_leaves
          ((blocks.map (fun b => b.output.transactions_to_commit)).flatten).length
          li.version), st) := by
  unfold commit_blocks
  simp only [BlockTree.root_block, hblocks]
  rw [if_neg hretry, if_pos hsum]

/-- C1 witness: in `fixSt1` (block 1 executed, nothing committed yet), a
ledger info at version 10 triggers `BadNumTxnsToCommit {0, 2, 10}` with
the state unchanged. -/
theorem commit_blocks_bad_num_txns_witness :
    commit_blocks fixSt1 [1] { fixLi with version := 10 } =
      (.err (.BadNumTxnsToCommit 0 2 10), fixSt1) := by
  have h := commit_blocks_bad_num_txns fixSt1 [1] { fixLi with version := 10 }
    (fixSt1.tree.speculative) (by decide) (by rfl) (by decide)
  exact h

/-- C1 counterexample: the claim as stated quantifies over every call,
but the idempotent-retry check precedes the version check.  In the
reachable state `fixSt2` (block 1 just committed at version 1, so the
root's `num_persisted_transactions = 2`), calling `commit_blocks [1]`
with the same ledger info has `first_version + to_commit = 2 + 2 ≠ 2 =
li.version + 1`, yet it returns success, not `BadNumTxnsToCommit`. -/
theorem commit_blocks_bad_num_txns_cex :
    (fixSt2.tree.get_blocks [1]).map
        (fun blocks =>
          fixSt2.tree.root.output.result_view.txn_accumulator.num_leaves +
            ((blocks.map (fun b => b.output.transactions_to_commit)).flatten).length) =
      .ok 4 ∧
    ¬ (4 : Nat) = fixLi.version + 1 ∧
    (commit_blocks fixSt2 [1] fixLi).1 = .ok := by
  constructor
  · rfl
  · exact ⟨by decide, by rfl⟩

/-! ### C10 -/

/-- C10: on every error return of `commit_blocks` the executor state is
unchanged — the block tree keeps its root and all speculative nodes, and
storage is untouched (pruning happens only after `save_transactions`
succeeds; a prune failure is the distinct `fatal` outcome, not an error
return). -/
theorem commit_blocks_error_state_unchanged (st : ExecutorState)
    (block_ids : List Nat) (li : LedgerInfo) (e : Error) (st' : ExecutorState)
    (h : commit_blocks st block_ids li = (.err e, st')) : st' = st := by
  unfold commit_blocks at h
  simp only [BlockTree.root_block] at h
  by_cases hretry : st.tree.root.num_persisted_transactions = li.version + 1
  · rw [if_pos hretry] at h
    simp at h
  · rw [if_neg hretry] at h
    split at h
    · simp only [Prod.mk.injEq] at h
      exact h.2.symm
    · split at h
      · simp only [Prod.mk.injEq] at h
        exact h.2.symm
      · split at h
        · simp only [Prod.mk.injEq] at h
          exact h.2.symm
        · split at h
          · simp at h
          · simp at h

/-- C10 witness: committing the unknown block 3 from the fixture state
errors and leaves the state exactly as it was. -/
theorem commit_blocks_error_state_unchanged_witness :
    commit_blocks fixSt1 [3] fixLi = (.err (.BlockNotFound 3), fixSt1) ∧
    (commit_blocks fixSt1 [3] fixLi).2 = fixSt1 :=
  ⟨by rfl, commit_blocks_error_state_unchanged fixSt1 [3] fixLi (.BlockNotFound 3)
    (commit_blocks fixSt1 [3] fixLi).2 (by rfl)⟩

/-! ### Bootstrap inversion lemmas -/

theorem genesis_output_inv (vm : VMExec) (ts : TreeState) (tx : Txn)
    (out : ExecutedChunk) (h : genesis_output vm ts tx = .ok out) :
    out.result_view.accumulator.leaves = ts.leaves ++ out.to_commit.map (·.txn) ∧
    out.to_commit.length ≤ 1 := by
  cases hvm : vm tx ts.into_ledger_view.state with
  | err =>
    simp [genesis_output, ChunkOutput.by_transaction_execution, runTxns, hvm] at h
  | discard =>
    simp only [genesis_output, ChunkOutput.by_transaction_execution, runTxns, hvm,
      ChunkOutput.apply_to_ledger, Except.ok.injEq] at h
    subst h
    simp [TreeState.into_ledger_view]
  | keep ws rc =>
    cases rc with
    | some es =>
      simp only [genesis_output, ChunkOutput.by_transaction_execution, runTxns, hvm,
        ChunkOutput.apply_to_ledger, Except.ok.injEq] at h
      subst h
      simp [TreeState.into_ledger_view]
    | none =>
      simp only [genesis_output, ChunkOutput.by_transaction_execution, runTxns, hvm,
        ChunkOutput.apply_to_ledger, Except.ok.injEq] at h
      subst h
      simp [TreeState.into_ledger_view]

theorem genesis_timestamp_of_inv (ts : TreeState) (epoch : Nat)
    (out : ExecutedChunk) (tsu : Nat)
    (h : genesis_timestamp_of ts epoch out = .ok tsu) :
    (ts.num_transactions = 0 → tsu = GENESIS_TIMESTAMP_USECS) ∧
    (¬ ts.num_transactions = 0 →
      get_state_epoch out.result_view.state = .ok (epoch + 1) ∧
      get_state_timestamp out.result_view.state = .ok tsu) := by
  unfold genesis_timestamp_of at h
  by_cases h0 : ts.num_transactions = 0
  · rw [if_pos h0] at h
    simp only [Except.ok.injEq] at h
    exact ⟨fun _ => h.symm, fun hc => absurd h0 hc⟩
  · rw [if_neg h0] at h
    refine ⟨fun hc => absurd hc h0, fun _ => ?_⟩
    cases hN : get_state_epoch out.result_view.state with
    | error e => simp only [hN] at h; exact Except.noConfusion h
    | ok new_epoch =>
      simp only [hN] at h
      by_cases hbump : epoch + 1 = new_epoch
      · rw [if_neg (not_not_intro hbump)] at h
        exact ⟨by rw [hbump], h⟩
      · rw [if_pos hbump] at h
        exact Except.noConfusion h

theorem calculate_genesis_inv (vm : VMExec) (ts : TreeState) (tx : Txn)
    (c : GenesisCommitter) (h : calculate_genesis vm ts tx = .ok c) :
    ∃ out li, genesis_output vm ts tx = .ok out ∧
      ¬ out.to_commit = [] ∧
      out.next_epoch_state.isSome = true ∧
      c.output = { out with ledger_info := some li } ∧
      c.waypoint = Waypoint.new_epoch_boundary li ∧
      li.version = ts.num_transactions ∧
      (ts.num_transactions = 0 →
        li.timestamp_usecs = GENESIS_TIMESTAMP_USECS ∧ li.epoch = GENESIS_EPOCH) ∧
      (¬ ts.num_transactions = 0 →
        get_state_epoch ts.into_ledger_view.state = .ok li.epoch ∧
        get_state_epoch out.result_view.state = .ok (li.epoch + 1) ∧
        get_state_timestamp out.result_view.state = .ok li.timestamp_usecs) := by
  unfold calculate_genesis at h
  cases hE : genesis_epoch_of ts with
  | error e => simp only [hE] at h; exact Except.noConfusion h
  | ok epoch =>
    simp only [hE] at h
    cases hout : genesis_output vm ts tx with
    | error e => simp only [hout] at h; exact Except.noConfusion h
    | ok out =>
      simp only [hout] at h
      by_cases hempty : out.to_commit.isEmpty = true
      · rw [if_pos hempty] at h
        exact Except.noConfusion h
      · rw [if_neg hempty] at h
        cases hT : genesis_timestamp_of ts epoch out with
        | error e => simp only [hT] at h; exact Except.noConfusion h
        | ok tsu =>
          simp only [hT] at h
          by_cases hnone : out.next_epoch_state.isNone = true
          · rw [if_pos hnone] at h
            exact Except.noConfusion h
          · rw [if_neg hnone] at h
            simp only [Except.ok.injEq] at h
            subst h
            obtain ⟨hts0, htsN⟩ := genesis_timestamp_of_inv ts epoch out tsu hT
            refine ⟨out, genesis_ledger_info ts epoch out tsu, rfl,
              by simpa using hempty,
              by cases hx : out.next_epoch_state <;> simp_all,
              rfl, rfl, rfl, ?_, ?_⟩
            · intro h0
              have hEE := hE
              unfold genesis_epoch_of at hEE
              rw [if_pos h0] at hEE
              simp only [Except.ok.injEq] at hEE
              exact ⟨hts0 h0, by simp [genesis_ledger_info, hEE.symm]⟩
            · intro h0
              obtain ⟨hpost, htime⟩ := htsN h0
              have hEE := hE
              unfold genesis_epoch_of at hEE
              rw [if_neg h0] at hEE
              exact ⟨by simpa [genesis_ledger_info] using hEE,
                by simpa [genesis_ledger_info] using hpost,
                by simpa [genesis_ledger_info] using htime⟩

theorem calculate_genesis_empty_ok (vm : VMExec) (ts : TreeState) (tx : Txn)
    (out : ExecutedChunk) (h0 : ts.num_transactions = 0)
    (hout : genesis_output vm ts tx = .ok out) (hne : ¬ out.to_commit = [])
    (hsome : out.next_epoch_state.isSome = true) :
    ∃ c, calculate_genesis vm ts tx = .ok c := by
  have hE : genesis_epoch_of ts = .ok GENESIS_EPOCH := by
    unfold genesis_epoch_of
    rw [if_pos h0]
  have hT : genesis_timestamp_of ts GENESIS_EPOCH out = .ok GENESIS_TIMESTAMP_USECS := by
    unfold genesis_timestamp_of
    rw [if_pos h0]
  have hnone : ¬ out.next_epoch_state.isNone = true := by
    cases hx : out.next_epoch_state <;> simp_all
  refine ⟨⟨{ out with
             ledger_info := some (genesis_ledger_info ts GENESIS_EPOCH out
               GENESIS_TIMESTAMP_USECS) },
    Waypoint.new_epoch_boundary
      (genesis_ledger_info ts GENESIS_EPOCH out GENESIS_TIMESTAMP_USECS)⟩, ?_⟩
  unfold calculate_genesis
  simp only [hE, hout, hT]
  rw [if_neg (show ¬ out.to_commit.isEmpty = true by simpa using hne), if_neg hnone]

/-! ### C8 -/

/-- C8: `calculate_genesis` fails whenever executing the genesis
transaction yields an empty to-commit list or no reconfiguration event;
a committer (hence a waypoint) is produced only when both a non-empty
commit and a `next_epoch_state` are present; and a `calculate_genesis`
error makes `generate_waypoint` fail as well. -/
theorem calculate_genesis_requires_commit_and_reconfig (vm : VMExec)
    (ts : TreeState) (tx : Txn) :
    (∀ out, genesis_output vm ts tx = .ok out →
      (out.to_commit = [] ∨ out.next_epoch_state = none) →
      ∃ e, calculate_genesis vm ts tx = .error e) ∧
    (∀ c, calculate_genesis vm ts tx = .ok c →
      ∃ out, genesis_output vm ts tx = .ok out ∧
        ¬ out.to_commit = [] ∧ out.next_epoch_state.isSome = true) ∧
    (∀ db, db.get_latest_tree_state = ts →
      ∀ e, calculate_genesis vm ts tx = .error e →
        generate_waypoint vm db tx = .error e) := by
  refine ⟨?_, ?_, ?_⟩
  · intro out hout hbad
    cases hres : calculate_genesis vm ts tx with
    | error e => exact ⟨e, rfl⟩
    | ok c =>
      obtain ⟨out', li, hout', hne, hsome, -⟩ :=
        calculate_genesis_inv vm ts tx c hres
      rw [hout] at hout'
      simp only [Except.ok.injEq] at hout'
      subst hout'
      cases hbad with
      | inl hempty => exact absurd hempty hne
      | inr hnone => rw [hnone] at hsome; exact absurd hsome (by simp)
  · intro c hc
    obtain ⟨out, li, hout, hne, hsome, -⟩ := calculate_genesis_inv vm ts tx c hc
    exact ⟨out, hout, hne, hsome⟩
  · intro db hdb e he
    unfold generate_waypoint
    simp only [hdb, he]

/-- The tree state of an empty ledger. -/
def fixGenTsE : TreeState := { num_transactions := 0, leaves := [], state := [] }

/-- A VM that discards every transaction. -/
def fixDiscardVM : VMExec := fun _ _ => .discard

/-- The chunk produced by a discarded genesis transaction on the empty
tree state: nothing to commit, no reconfiguration. -/
def fixDiscardOut : ExecutedChunk :=
  { to_commit := [], status := [.Discard],
    result_view := { accumulator := ⟨[]⟩, state := [] },
    next_epoch_state := none, ledger_info := none }

/-- C8 witness: a genesis transaction that the VM discards yields an empty
to-commit list, and `calculate_genesis` fails on it. -/
theorem calculate_genesis_requires_commit_and_reconfig_witness :
    ∃ e, calculate_genesis fixDiscardVM fixGenTsE 99 = .error e :=
  (calculate_genesis_requires_commit_and_reconfig fixDiscardVM fixGenTsE 99).1
    fixDiscardOut (by rfl) (Or.inl rfl)

/-! ### C9 -/

/-- C9: on an empty ledger `calculate_genesis` uses the constant genesis
timestamp and performs no epoch-bump check (success needs only a
non-empty commit and a reconfiguration event); on a non-empty ledger it
succeeds only when the post-genesis epoch is the prior on-chain epoch
plus one, and then the ledger info's `timestamp_usecs` is read from the
post-genesis state's `TimestampResource`. -/
theorem calculate_genesis_timestamp_and_epoch_bump (vm : VMExec)
    (ts : TreeState) (tx : Txn) :
    (ts.num_transactions = 0 →
      (∀ c, calculate_genesis vm ts tx = .ok c →
        ∃ li, c.output.ledger_info = some li ∧
          li.timestamp_usecs = GENESIS_TIMESTAMP_USECS) ∧
      (∀ out, genesis_output vm ts tx = .ok out → ¬ out.to_commit = [] →
        out.next_epoch_state.isSome = true →
        ∃ c, calculate_genesis vm ts tx = .ok c)) ∧
    (¬ ts.num_transactions = 0 →
      (∀ c, calculate_genesis vm ts tx = .ok c →
        ∃ out li e0, genesis_output vm ts tx = .ok out ∧
          c.output.ledger_info = some li ∧
          get_state_epoch ts.into_ledger_view.state = .ok e0 ∧
          get_state_epoch out.result_view.state = .ok (e0 + 1) ∧
          get_state_timestamp out.result_view.state = .ok li.timestamp_usecs) ∧
      (∀ out e0 e1, genesis_output vm ts tx = .ok out →
        get_state_epoch ts.into_ledger_view.state = .ok e0 →
        get_state_epoch out.result_view.state = .ok e1 → ¬ e1 = e0 + 1 →
        ∃ e, calculate_genesis vm ts tx = .error e)) := by
  constructor
  · intro h0
    constructor
    · intro c hc
      obtain ⟨out, li, hout, hne, hsome, hcout, hcwp, hver, hts0, -⟩ :=
        calculate_genesis_inv vm ts tx c hc
      exact ⟨li, by rw [hcout], (hts0 h0).1⟩
    · intro out hout hne hsome
      exact calculate_genesis_empty_ok vm ts tx out h0 hout hne hsome
  · intro h0
    constructor
    · intro c hc
      obtain ⟨out, li, hout, hne, hsome, hcout, hcwp, hver, -, htsN⟩ :=
        calculate_genesis_inv vm ts tx c hc
      obtain ⟨hbase, hpost, htime⟩ := htsN h0
      exact ⟨out, li, li.epoch, hout, by rw [hcout], hbase, hpost, htime⟩
    · intro out e0 e1 hout hbase hpost hbump
      cases hres : calculate_genesis vm ts tx with
      | error e => exact ⟨e, rfl⟩
      | ok c =>
        obtain ⟨out', li, hout', hne, hsome, hcout, hcwp, hver, -, htsN⟩ :=
          calculate_genesis_inv vm ts tx c hres
        rw [hout] at hout'
        simp only [Except.ok.injEq] at hout'
        subst hout'
        obtain ⟨hbase', hpost', -⟩ := htsN h0
        rw [hbase] at hbase'
        simp only [Except.ok.injEq] at hbase'
        rw [hpost] at hpost'
        simp only [Except.ok.injEq] at hpost'
        exact absurd (by rw [hpost', hbase']) hbump

/-- A VM bumping the on-chain epoch 4 to 5 and writing timestamp 77. -/
def fixGenVM : VMExec := fun _ _ => .keep [(0, 5), (1, 77)] (some 5)

/-- A non-empty tree state at epoch 4 (configuration key 0) and
timestamp 10 (timestamp key 1). -/
def fixGenTs : TreeState :=
  { num_transactions := 1, leaves := [3], state := [(0, 4), (1, 10)] }

/-- The committer produced by `calculate_genesis fixGenVM fixGenTs 99`. -/
def fixGenC : GenesisCommitter :=
  { output :=
      { to_commit := [⟨99, [(0, 5), (1, 77)]⟩]
        status := [.Keep]
        result_view :=
          { accumulator := ⟨[3, 99]⟩, state := [(1, 77), (0, 5), (0, 4), (1, 10)] }
        next_epoch_state := some 5
        ledger_info := some
          { epoch := 4, round := 0, consensus_block_id := 0, root_hash := 9810,
            version := 1, timestamp_usecs := 77, next_epoch_state := some 5,
            consensus_data_hash := 0 } }
    waypoint := { version := 1, root_hash := 9810 } }

/-- C9 witness: on the concrete non-empty ledger, genesis succeeds with
the epoch bumped from 4 to 5 and the timestamp 77 taken from the
post-genesis `TimestampResource`. -/
theorem calculate_genesis_timestamp_and_epoch_bump_witness :
    ∃ out li e0, genesis_output fixGenVM fixGenTs 99 = .ok out ∧
      fixGenC.output.ledger_info = some li ∧
      get_state_epoch fixGenTs.into_ledger_view.state = .ok e0 ∧
      get_state_epoch out.result_view.state = .ok (e0 + 1) ∧
      get_state_timestamp out.result_view.state = .ok li.timestamp_usecs :=
  ((calculate_genesis_timestamp_and_epoch_bump fixGenVM fixGenTs 99).2
    (by decide)).1 fixGenC (by rfl)

/-! ### C7 -/

/-- C7: the waypoint round-trip.  (i) When the persisted transaction count
differs from `wp.version`, `maybe_bootstrap` returns `false` without
committing (the storage is returned unchanged).  (ii) When
`generate_waypoint` succeeds on the same db, `maybe_bootstrap` with that
waypoint commits genesis and returns `true`.  (iii) Conversely a `true`
return means the db was at `wp.version` and the recomputed waypoint
(`generate_waypoint` on the same db) equals `wp`. -/
theorem waypoint_round_trip (vm : VMExec) (db : Storage) (tx : Txn) :
    (∀ wp, ¬ db.get_latest_tree_state.num_transactions = wp.version →
      maybe_bootstrap vm db tx wp = .ok (false, db)) ∧
    (∀ wp, generate_waypoint vm db tx = .ok wp →
      ∃ db', maybe_bootstrap vm db tx wp = .ok (true, db')) ∧
    (∀ wp db', maybe_bootstrap vm db tx wp = .ok (true, db') →
      db.get_latest_tree_state.num_transactions = wp.version ∧
      generate_waypoint vm db tx = .ok wp) := by
  refine ⟨?_, ?_, ?_⟩
  · intro wp hv
    unfold maybe_bootstrap
    rw [if_pos hv]
  · intro wp hg
    unfold generate_waypoint at hg
    cases hc : calculate_genesis vm db.get_latest_tree_state tx with
    | error e => simp only [hc] at hg; exact Except.noConfusion hg
    | ok c =>
      simp only [hc, Except.ok.injEq] at hg
      subst hg
      obtain ⟨out, li, hout, hne, hsome, hcout, hcwp, hver, -, -⟩ :=
        calculate_genesis_inv vm db.get_latest_tree_state tx c hc
      obtain ⟨hleaves, hlen⟩ :=
        genesis_output_inv vm db.get_latest_tree_state tx out hout
      have hwpv : c.waypoint.version = db.get_latest_tree_state.num_transactions := by
        rw [hcwp]
        simpa [Waypoint.new_epoch_boundary] using hver
      have h1 : out.to_commit.length = 1 := by
        have hpos : 0 < out.to_commit.length := List.length_pos.mpr hne
        omega
      have hfv : c.output.result_view.txn_accumulator.version = db.txns.length := by
        have hrv : c.output.result_view = out.result_view := by rw [hcout]
        rw [hrv]
        simp only [LedgerView.txn_accumulator, Accumulator.version,
          Accumulator.num_leaves, hleaves]
        simp [Storage.get_latest_tree_state, h1]
      have hcm : ∃ db2, GenesisCommitter.commit c db = .ok db2 := by
        unfold GenesisCommitter.commit Storage.save_transactions
        rw [if_neg (not_not_intro hfv)]
        exact ⟨_, rfl⟩
      obtain ⟨db2, hcm⟩ := hcm
      refine ⟨db2, ?_⟩
      unfold maybe_bootstrap
      rw [if_neg (not_not_intro hwpv.symm)]
      simp only [hc]
      rw [if_neg (not_not_intro rfl)]
      simp only [hcm]
  · intro wp db' h
    unfold maybe_bootstrap at h
    by_cases hv : db.get_latest_tree_state.num_transactions = wp.version
    · rw [if_neg (not_not_intro hv)] at h
      cases hc : calculate_genesis vm db.get_latest_tree_state tx with
      | error e => simp only [hc] at h; exact Except.noConfusion h
      | ok c =>
        simp only [hc] at h
        by_cases hwq : wp = c.waypoint
        · refine ⟨hv, ?_⟩
          unfold generate_waypoint
          simp only [hc, Except.ok.injEq]
          exact hwq.symm
        · rw [if_pos hwq] at h
          exact Except.noConfusion h
    · rw [if_pos hv] at h
      simp at h

/-- The storage matching the non-empty genesis fixtures. -/
def fixGenDb : Storage :=
  { txns := [⟨3, []⟩], state := [(0, 4), (1, 10)], ledger_info := none }

/-- C7 witness: on the concrete non-empty db, the waypoint produced by
`generate_waypoint` makes `maybe_bootstrap` commit and return `true`. -/
theorem waypoint_round_trip_witness :
    ∃ db', maybe_bootstrap fixGenVM fixGenDb 99 { version := 1, root_hash := 9810 } =
      .ok (true, db') :=
  (waypoint_round_trip fixGenVM fixGenDb 99).2.1 { version := 1, root_hash := 9810 }
    (by rfl)

end Nore
